import Mathlib

/-!
Verification of the OrnithoCount session/sighting core.

The definitions below are a shallow embedding of the TypeScript source:
`SessionView` (src/unnamed/part_000) and `App` (src/App.tsx).

Modelling conventions:
* ISO-8601 instants are modelled as minute counts (`Nat`); `Date.setHours` /
  `Date.setMinutes` become arithmetic on those counts, and a timestamp's date
  component is its day index `t / 1440`.
* JavaScript numbers used as counts are modelled as `Int` (the UI can produce
  negative counts, e.g. the `-1` trip decrement).
* `confirm` dialogs become an explicit `confirmed : Bool` argument; `alert`
  calls that abort a handler become an `Except` error result.
* `Array.prototype.sort` (stable since ES2019) is modelled by Mathlib's
  stable `List.insertionSort` over the relation `cmp a b ≤ 0`: for a
  consistent comparator the stable sorted result is unique, so any correct
  stable sort agrees with it.
* A JavaScript plain-object record is modelled as an insertion-ordered
  association list.  (JavaScript additionally enumerates integer-like keys in
  ascending numeric order; concrete inputs used below are chosen so that the
  two enumeration orders coincide.)
-/

/-- Session lifecycle status: `'active' | 'completed'`. -/
inductive SessionStatus where
  | active
  | completed
deriving DecidableEq, Repr

/-- Session type: `'trip' | 'counting'`. -/
inductive SessionKind where
  | trip
  | counting
deriving DecidableEq, Repr

/-- Sync status: `'unsynced' | 'synced' | 'error'`. -/
inductive SyncState where
  | unsynced
  | synced
  | errored
deriving DecidableEq, Repr

/-- Weather metadata of a session (all optional free-text strings). -/
structure Weather where
  temperature : String
  cloudCover : String
  windSpeed : String
  precipitation : String
deriving DecidableEq, Repr

/-- A sighting record.  Timestamps are minute counts; `direction` and
`comment` stand in for the optional categorical/comment fields. -/
structure Sighting where
  id : String
  speciesId : String
  timestamp : Nat
  count : Int
  latitude : Option Int := none
  longitude : Option Int := none
  direction : Option String := none
  comment : Option String := none
deriving DecidableEq, Repr

/-- A species catalogue entry. -/
structure Species where
  id : String
  name : String
  abbreviation : String
  family : Option String := none
deriving DecidableEq, Repr

/-- A session aggregate: metadata plus its ordered sighting log. -/
structure Session where
  id : String
  type : SessionKind
  name : String
  date : String
  startTime : String
  endTime : Option String := none
  observers : String
  notes : String
  latitude : Option Int := none
  longitude : Option Int := none
  weather : Weather
  sightings : List Sighting
  status : SessionStatus
  syncStatus : SyncState
  remoteId : Option String := none
deriving DecidableEq, Repr

/-- The partial sighting passed to `addSighting` (species id and count plus
optional categorical fields; callers never override id/timestamp/coords). -/
structure SightingData where
  speciesId : String
  count : Int
  direction : Option String := none
  comment : Option String := none
deriving DecidableEq, Repr

/-- Sum of `count` over the sightings of a list matching a species id, as the
`filter`/`reduce` in `getCountForSpecies` computes it. -/
def countSightings (sightings : List Sighting) (id : String) : Int :=
  (sightings.filter (fun s => s.speciesId == id)).foldl (fun acc curr => acc + curr.count) 0

/-- `getCountForSpecies` from `SessionView` (src/unnamed/part_000:59-63). -/
def getCountForSpecies (session : Session) (id : String) : Int :=
  countSightings session.sightings id

/-- Spec-side restatement of `countForSpecies`, used only to compare with the
code's `getCountForSpecies`: the sum of the `count` fields of exactly those
sightings whose `speciesId` equals the given id. -/
def specCountForSpecies (sightings : List Sighting) (id : String) : Int :=
  ((sightings.filter (fun s => s.speciesId == id)).map (fun s => s.count)).sum

/-- The sighting record built inside `addSighting`: generated id, current
timestamp, coordinates defaulted from the session, then the caller's data. -/
def mkSighting (session : Session) (data : SightingData) (newId : String) (now : Nat) : Sighting :=
  { id := newId
    timestamp := now
    latitude := session.latitude
    longitude := session.longitude
    speciesId := data.speciesId
    count := data.count
    direction := data.direction
    comment := data.comment }

/-- Message shown by `addSighting` when the session is completed. -/
def finishedMsg : String := "Session is finished. Re-open to add counts."

/-- `addSighting` (src/unnamed/part_000:137-154): rejects with an alert if the
session is completed, otherwise appends a new sighting. -/
def addSighting (session : Session) (data : SightingData) (newId : String) (now : Nat) :
    Except String Session :=
  if session.status = .completed then
    .error finishedMsg
  else
    .ok { session with sightings := session.sightings ++ [mkSighting session data newId now] }

/-- One append call: the data plus the generated id and timestamp. -/
structure AppendCall where
  data : SightingData
  newId : String
  now : Nat
deriving DecidableEq, Repr

/-- Run a sequence of `addSighting` calls, ignoring rejected ones (the alert
leaves the session unchanged). -/
def applyAppends (session : Session) (calls : List AppendCall) : Session :=
  calls.foldl
    (fun acc c =>
      match addSighting acc c.data c.newId c.now with
      | .ok s => s
      | .error _ => acc)
    session

/-- `handleRecordDelete` (src/unnamed/part_000:180-188): after the confirm
dialog, removes every sighting whose id matches.  Note: no status check. -/
def handleRecordDelete (session : Session) (id : String) (confirmed : Bool) : Session :=
  if confirmed then
    { session with sightings := session.sightings.filter (fun s => s.id != id) }
  else
    session

/-- `handleSimpleIncrement` (src/unnamed/part_000:156-160): refuses a negative
amount when the running total is already ≤ 0, otherwise appends. -/
def handleSimpleIncrement (session : Session) (speciesId : String) (amount : Int)
    (newId : String) (now : Nat) : Session :=
  let current := getCountForSpecies session speciesId
  if amount < 0 ∧ current ≤ 0 then
    session
  else
    match addSighting session { speciesId := speciesId, count := amount } newId now with
    | .ok s => s
    | .error _ => session

/-- One simple-increment call: species id, amount, generated id, timestamp. -/
structure IncrementCall where
  speciesId : String
  amount : Int
  newId : String
  now : Nat
deriving DecidableEq, Repr

/-- Run a sequence of `handleSimpleIncrement` calls. -/
def applyIncrements (session : Session) (calls : List IncrementCall) : Session :=
  calls.foldl (fun acc c => handleSimpleIncrement acc c.speciesId c.amount c.newId c.now) session

/-- `handleToggleFinish` (src/unnamed/part_000:114-124): after the confirm
dialog, sets status to completed and endTime to the current time-of-day. -/
def handleToggleFinish (session : Session) (now : String) (confirmed : Bool) : Session :=
  if confirmed then
    { session with status := .completed, endTime := some now }
  else
    session

/-- The Resume Counting button (src/unnamed/part_000:641): flips status back
to active, touching nothing else. -/
def resumeSession (session : Session) : Session :=
  { session with status := .active }

/-- `Date.prototype.setHours` on a minute-count timestamp: keeps the day and
the minute-of-hour, replaces the hour (rolling over like JavaScript). -/
def jsSetHours (t : Nat) (h : Nat) : Nat :=
  1440 * (t / 1440) + 60 * h + t % 60

/-- `Date.prototype.setMinutes` on a minute-count timestamp: keeps everything
above the minute, replaces the minute. -/
def jsSetMinutes (t : Nat) (m : Nat) : Nat :=
  60 * (t / 60) + m

/-- `handleSaveEdit` (src/unnamed/part_000:93-112).  `editing` is the patched
record (same id as the original sighting); `editTime` is the parsed `HH:MM`
field, `none` when empty or unparseable.  The timestamp of the patched record
gets its hours and minutes replaced, and the log entry with the matching id is
replaced by the patched record. -/
def editUpdatedTimestamp (editing : Sighting) (editTime : Option (Nat × Nat)) : Nat :=
  match editTime with
  | none => editing.timestamp
  | some (h, m) => jsSetMinutes (jsSetHours editing.timestamp h) m

/-- The map step of `handleSaveEdit`: the log entry whose id matches the
patched record is replaced by the patched record. -/
def handleSaveEdit (session : Session) (editing : Sighting) (editTime : Option (Nat × Nat)) :
    Session :=
  { session with
    sightings := session.sightings.map
      (fun s =>
        if s.id == editing.id then
          { editing with timestamp := editUpdatedTimestamp editing editTime }
        else s) }

/-- Boolean test that `needle` occurs as a contiguous sublist of the second
argument, as `String.prototype.includes` tests substrings. -/
def containsSublist (needle : List Char) : List Char → Bool
  | [] => needle.isEmpty
  | c :: rest => needle.isPrefixOf (c :: rest) || containsSublist needle rest

/-- `String.prototype.toLowerCase`, modelled characterwise on the string's
character list. -/
def jsToLower (s : String) : List Char :=
  s.toList.map Char.toLower

/-- `haystack.toLowerCase().includes(needle.toLowerCase())` on strings. -/
def jsIncludes (haystack needle : String) : Bool :=
  containsSublist (jsToLower needle) (jsToLower haystack)

/-- The filter predicate of `filteredAndSortedSpecies`
(src/unnamed/part_000:68-72): name, abbreviation, or (when present) family
case-insensitively contains the search term. -/
def speciesMatches (searchTerm : String) (s : Species) : Bool :=
  jsIncludes s.name searchTerm ||
  jsIncludes s.abbreviation searchTerm ||
  (match s.family with
   | some f => jsIncludes f searchTerm
   | none => false)

/-- Three-way lexicographic comparison of character lists, the kernel of the
`localeCompare` model. -/
def compareChars : List Char → List Char → Int
  | [], [] => 0
  | [], _ :: _ => -1
  | _ :: _, [] => 1
  | a :: as, b :: bs => if a < b then -1 else if b < a then 1 else compareChars as bs

/-- Model of `String.prototype.localeCompare` as the three-way comparison of
the lexicographic string order (the locale-aware collation is abstracted to
the character order). -/
def compareName (a b : String) : Int :=
  compareChars a.toList b.toList

/-- The comparator of `filteredAndSortedSpecies` (src/unnamed/part_000:74-80):
a species with positive count sorts before one with zero count; otherwise by
name. -/
def cmpSpecies (session : Session) (a b : Species) : Int :=
  let aCount := getCountForSpecies session a.id
  let bCount := getCountForSpecies session b.id
  if aCount > 0 ∧ bCount = 0 then -1
  else if bCount > 0 ∧ aCount = 0 then 1
  else compareName a.name b.name

/-- `filteredAndSortedSpecies` (src/unnamed/part_000:66-81): filter by the
search term, then stable-sort by the comparator. -/
def filteredAndSortedSpecies (speciesList : List Species) (searchTerm : String)
    (session : Session) : List Species :=
  List.insertionSort (fun a b => cmpSpecies session a b ≤ 0)
    (speciesList.filter (speciesMatches searchTerm))

/-- `totalBirds` of `renderReportUI` (src/unnamed/part_000:556). -/
def totalBirds (session : Session) : Int :=
  session.sightings.foldl (fun acc s => acc + s.count) 0

/-- `uniqueSpecies` of `renderReportUI` (src/unnamed/part_000:557): the size
of the set of species ids present, i.e. the number of distinct ids. -/
def uniqueSpecies (session : Session) : Nat :=
  (session.sightings.map (fun s => s.speciesId)).dedup.length

/-- `speciesCounts[k] = (speciesCounts[k] || 0) + v` on an insertion-ordered
record: add to an existing key in place, or append a new key at the end. -/
def jsRecordAdd (m : List (String × Int)) (k : String) (v : Int) : List (String × Int) :=
  match m with
  | [] => [(k, v)]
  | (k', v') :: rest => if k' = k then (k', v' + v) :: rest else (k', v') :: jsRecordAdd rest k v

/-- The `speciesCounts` record of `renderReportUI` (src/unnamed/part_000:560-563). -/
def speciesCounts (session : Session) : List (String × Int) :=
  session.sightings.foldl (fun m s => jsRecordAdd m s.speciesId s.count) []

/-- One row of the report's species breakdown. -/
structure ReportEntry where
  name : String
  count : Int
  id : String
deriving DecidableEq, Repr

/-- The row built for one record entry (src/unnamed/part_000:566-569): resolve
the species name in the catalogue, falling back to the literal "Unknown". -/
def mkReportEntry (speciesList : List Species) (p : String × Int) : ReportEntry :=
  { name := ((speciesList.find? (fun sp => sp.id == p.1)).map (fun sp => sp.name)).getD "Unknown"
    count := p.2
    id := p.1 }

/-- The `sortedSpecies` breakdown of `renderReportUI`
(src/unnamed/part_000:564-569): record entries stable-sorted by descending
count, then resolved against the catalogue. -/
def sortedSpecies (session : Session) (speciesList : List Species) : List ReportEntry :=
  (List.insertionSort (fun p q : String × Int => q.2 ≤ p.2) (speciesCounts session)).map
    (mkReportEntry speciesList)

/-- A JSON value, as `JSON.parse` produces it. -/
inductive Json where
  | jnull
  | jbool (b : Bool)
  | jnum (n : Int)
  | jstr (s : String)
  | jarr (elems : List Json)
  | jobj (fields : List (String × Json))
deriving Repr

/-- Property access `j[k]`: `none` models `undefined`. -/
def jsGet (j : Json) (k : String) : Option Json :=
  match j with
  | .jobj fields => (fields.find? (fun p => p.1 == k)).map (fun p => p.2)
  | _ => none

/-- JavaScript truthiness of a possibly-undefined value. -/
def jsTruthy : Option Json → Bool
  | none => false
  | some .jnull => false
  | some (.jbool b) => b
  | some (.jnum n) => n != 0
  | some (.jstr s) => s != ""
  | some (.jarr _) => true
  | some (.jobj _) => true

/-- JavaScript string coercion of a possibly-undefined value, as used by the
`json.name + ' (Imported)'` concatenation. -/
def jsCoerceString : Option Json → String
  | none => "undefined"
  | some .jnull => "null"
  | some (.jbool b) => if b then "true" else "false"
  | some (.jnum n) => toString n
  | some (.jstr s) => s
  | some (.jarr _) => ""
  | some (.jobj _) => "[object Object]"

/-- Assignment of a field on an object spread: an existing key keeps its
position, a new key is appended at the end. -/
def jsSetField (fields : List (String × Json)) (k : String) (v : Json) : List (String × Json) :=
  match fields with
  | [] => [(k, v)]
  | (k', v') :: rest =>
      if k' == k then (k, v) :: rest else (k', v') :: jsSetField rest k v

/-- The imported session `{ ...json, id: <new>, name: json.name + ' (Imported)' }`
(src/App.tsx:396). -/
def mkImported (json : Json) (newId : String) : Json :=
  match json with
  | .jobj fields =>
      .jobj (jsSetField (jsSetField fields "id" (.jstr newId)) "name"
        (.jstr (jsCoerceString (jsGet json "name") ++ " (Imported)")))
  | other => other

/-- Outcome surfaced to the user by `handleFileImport`. -/
inductive ImportOutcome where
  | success
  | invalidFormat
  | parseError
deriving DecidableEq, Repr

/-- `handleFileImport` (src/App.tsx:387-409).  The file read and `JSON.parse`
are summarised as `parsed`; on success the imported document is prepended to
the session collection. -/
def handleFileImport (sessions : List Json) (parsed : Except Unit Json) (newId : String) :
    List Json × ImportOutcome :=
  match parsed with
  | .error _ => (sessions, .parseError)
  | .ok json =>
      if jsTruthy (jsGet json "id") && jsTruthy (jsGet json "sightings") then
        (mkImported json newId :: sessions, .success)
      else
        (sessions, .invalidFormat)

/-- The new-session form data consumed by `handleStartSession`. -/
structure NewSessionData where
  name : String
  date : String
  startTime : String
  observers : String
  lat : Option Int := none
  lng : Option Int := none
  type : SessionKind
  temp : String := ""
  cloud : String := ""
  wind : String := ""
  precip : String := ""
deriving DecidableEq, Repr

/-- `handleStartSession` (src/App.tsx:347-376): build the new session, update
the location history (prepend-and-truncate for a non-empty name not already
present), and prepend the session to the collection. -/
def handleStartSession (sessions : List Session) (locationHistory : List String)
    (input : NewSessionData) (newId : String) : List Session × List String :=
  let newSession : Session :=
    { id := newId
      type := input.type
      name := if input.name != "" then input.name else "Session " ++ input.date
      date := input.date
      startTime := input.startTime
      endTime := none
      observers := if input.observers != "" then input.observers else "Self"
      notes := ""
      latitude := input.lat
      longitude := input.lng
      weather :=
        { temperature := input.temp
          cloudCover := input.cloud
          windSpeed := input.wind
          precipitation := input.precip }
      sightings := []
      status := .active
      syncStatus := .unsynced
      remoteId := none }
  let history :=
    if input.name != "" && !(locationHistory.contains input.name) then
      (input.name :: locationHistory).take 10
    else
      locationHistory
  (newSession :: sessions, history)

/-- Run a sequence of session-creation actions, threading the session
collection and the location history. -/
def applyCreations (sessions : List Session) (locationHistory : List String)
    (inputs : List (NewSessionData × String)) : List Session × List String :=
  inputs.foldl (fun acc c => handleStartSession acc.1 acc.2 c.1 c.2) (sessions, locationHistory)

/-! ### Helper lemmas about counting -/

theorem foldl_add_count (l : List Sighting) (a : Int) :
    l.foldl (fun acc curr => acc + curr.count) a = a + (l.map (fun s => s.count)).sum := by
  induction l generalizing a with
  | nil => simp
  | cons x xs ih => simp [List.foldl_cons, ih (a + x.count)]; ring

theorem countSightings_eq_spec (l : List Sighting) (id : String) :
    countSightings l id = specCountForSpecies l id := by
  simp [countSightings, specCountForSpecies, foldl_add_count]

theorem countSightings_append (l₁ l₂ : List Sighting) (id : String) :
    countSightings (l₁ ++ l₂) id = countSightings l₁ id + countSightings l₂ id := by
  simp [countSightings_eq_spec, specCountForSpecies, List.filter_append]

theorem countSightings_cons (x : Sighting) (l : List Sighting) (id : String) :
    countSightings (x :: l) id
      = (if x.speciesId == id then x.count else 0) + countSightings l id := by
  simp only [countSightings_eq_spec, specCountForSpecies, List.filter_cons]
  by_cases h : x.speciesId == id <;> simp [h]

theorem countSightings_singleton (x : Sighting) (id : String) :
    countSightings [x] id = if x.speciesId == id then x.count else 0 := by
  rw [countSightings_cons]
  simp [countSightings, List.filter]

theorem countSightings_nonneg (l : List Sighting) (id : String)
    (h : ∀ x ∈ l, 0 ≤ x.count) : 0 ≤ countSightings l id := by
  rw [countSightings_eq_spec, specCountForSpecies]
  apply List.sum_nonneg
  intro c hc
  obtain ⟨x, hx, rfl⟩ := List.mem_map.mp hc
  exact h x (List.mem_of_mem_filter hx)

/-! ### C5: append followed by remove of the new id restores the log -/

/-- C5: For every active session, performing append (addSighting) and then
immediately remove (handleRecordDelete, confirmed) with the id of the sighting
created by that append yields a session whose sightings sequence equals the
pre-append sequence.  The generated id is fresh (ids are unique within a
session). -/
theorem claim_C5_append_remove_round_trip (session : Session) (data : SightingData)
    (newId : String) (now : Nat)
    (hactive : session.status = .active)
    (hfresh : ∀ x ∈ session.sightings, x.id ≠ newId) :
    ∃ s, addSighting session data newId now = .ok s ∧
      (handleRecordDelete s newId true).sightings = session.sightings := by
  have h1 : addSighting session data newId now
      = .ok { session with sightings := session.sightings ++ [mkSighting session data newId now] } := by
    simp [addSighting, hactive]
  refine ⟨_, h1, ?_⟩
  simp only [handleRecordDelete, if_pos trivial, List.filter_append]
  rw [List.filter_eq_self.mpr, List.filter_eq_nil_iff.mpr]
  · simp
  · intro x hx
    simp only [List.mem_singleton] at hx
    subst hx
    simp [mkSighting]
  · intro x hx
    simpa using hfresh x hx

def exampleWeather : Weather := ⟨"", "", "", ""⟩

/-- A session fixture with a given sighting log and status. -/
def exampleSession (l : List Sighting) (st : SessionStatus) : Session :=
  { id := "sess1", type := .trip, name := "Harbour", date := "2025-03-01",
    startTime := "08:00", observers := "Self", notes := "", weather := exampleWeather,
    sightings := l, status := st, syncStatus := .unsynced }

def exampleSighting (i sp : String) (c : Int) : Sighting :=
  { id := i, speciesId := sp, timestamp := 0, count := c }

theorem claim_C5_witness :
    (exampleSession [exampleSighting "r1" "X" 2] .active).status = .active ∧
    ∃ s, addSighting (exampleSession [exampleSighting "r1" "X" 2] .active)
          ⟨"Y", 1, none, none⟩ "r2" 5 = .ok s ∧
        (handleRecordDelete s "r2" true).sightings
          = (exampleSession [exampleSighting "r1" "X" 2] .active).sightings :=
  ⟨rfl,
    claim_C5_append_remove_round_trip (exampleSession [exampleSighting "r1" "X" 2] .active)
      ⟨"Y", 1, none, none⟩ "r2" 5 rfl (by decide)⟩

/-! ### C2: mutating a completed session -/

/-- C2 (amended): on a completed session, `addSighting` performs no update and
signals the state-conflict alert; `handleRecordDelete`, however, performs no
status check — once confirmed it removes the matching sightings regardless of
status, so a delete on a completed session with a matching id does change the
sightings sequence. -/
theorem claim_C2_amended_completed_mutations (session : Session) (data : SightingData)
    (newId : String) (now : Nat) (sid : String)
    (hc : session.status = .completed) :
    addSighting session data newId now = .error finishedMsg ∧
    (handleRecordDelete session sid true).sightings
      = session.sightings.filter (fun s => s.id != sid) ∧
    (sid ∈ session.sightings.map (fun s => s.id) →
      (handleRecordDelete session sid true).sightings ≠ session.sightings) := by
  have hdel : (handleRecordDelete session sid true).sightings
      = session.sightings.filter (fun s => s.id != sid) := by
    simp [handleRecordDelete]
  refine ⟨by simp [addSighting, hc], hdel, ?_⟩
  intro hmem heq
  obtain ⟨x, hx, hxid⟩ := List.mem_map.mp hmem
  have hxf : x ∈ session.sightings.filter (fun s => s.id != sid) := by
    rw [← hdel, heq]; exact hx
  have := (List.mem_filter.mp hxf).2
  simp [hxid] at this

theorem claim_C2_witness :
    (exampleSession [exampleSighting "r1" "X" 2] .completed).status = .completed ∧
    addSighting (exampleSession [exampleSighting "r1" "X" 2] .completed)
      ⟨"Y", 1, none, none⟩ "r2" 5 = .error finishedMsg ∧
    (handleRecordDelete (exampleSession [exampleSighting "r1" "X" 2] .completed) "r1" true).sightings
      ≠ (exampleSession [exampleSighting "r1" "X" 2] .completed).sightings :=
  ⟨rfl,
    (claim_C2_amended_completed_mutations (exampleSession [exampleSighting "r1" "X" 2] .completed)
      ⟨"Y", 1, none, none⟩ "r2" 5 "r1" rfl).1,
    (claim_C2_amended_completed_mutations (exampleSession [exampleSighting "r1" "X" 2] .completed)
      ⟨"Y", 1, none, none⟩ "r2" 5 "r1" rfl).2.2 (by decide)⟩

/-- C2 counterexample: a completed session with one sighting; the confirmed
delete removes it, so the sightings sequence is not left unchanged (and no
state-conflict error is possible — the handler has no status check). -/
theorem claim_C2_counterexample :
    (exampleSession [exampleSighting "r1" "X" 2] .completed).status = .completed ∧
    (handleRecordDelete (exampleSession [exampleSighting "r1" "X" 2] .completed) "r1" true).sightings
      = [] ∧
    (handleRecordDelete (exampleSession [exampleSighting "r1" "X" 2] .completed) "r1" true).sightings
      ≠ (exampleSession [exampleSighting "r1" "X" 2] .completed).sightings := by
  refine ⟨rfl, by decide, by decide⟩

/-! ### C6: finish then resume is a frame: only status and endTime move -/

/-- C6: for every active session, finish (confirmed; sets status completed and
endTime to the current time-of-day) followed by resume leaves sightings, all
metadata fields and syncStatus unchanged; only status and endTime are
affected, and the pair is deterministic about endTime: resume clears nothing,
the finish-time is retained and status returns to active. -/
theorem claim_C6_finish_resume_frame (session : Session) (now : String)
    (hactive : session.status = .active) :
    ((resumeSession (handleToggleFinish session now true)).sightings = session.sightings) ∧
    ((resumeSession (handleToggleFinish session now true)).name = session.name) ∧
    ((resumeSession (handleToggleFinish session now true)).date = session.date) ∧
    ((resumeSession (handleToggleFinish session now true)).startTime = session.startTime) ∧
    ((resumeSession (handleToggleFinish session now true)).observers = session.observers) ∧
    ((resumeSession (handleToggleFinish session now true)).notes = session.notes) ∧
    ((resumeSession (handleToggleFinish session now true)).weather = session.weather) ∧
    ((resumeSession (handleToggleFinish session now true)).latitude = session.latitude) ∧
    ((resumeSession (handleToggleFinish session now true)).longitude = session.longitude) ∧
    ((resumeSession (handleToggleFinish session now true)).syncStatus = session.syncStatus) ∧
    ((resumeSession (handleToggleFinish session now true)).id = session.id) ∧
    ((resumeSession (handleToggleFinish session now true)).type = session.type) ∧
    ((resumeSession (handleToggleFinish session now true)).remoteId = session.remoteId) ∧
    ((resumeSession (handleToggleFinish session now true)).status = session.status) ∧
    ((resumeSession (handleToggleFinish session now true)).endTime = some now) := by
  simp [resumeSession, handleToggleFinish, hactive]

theorem claim_C6_witness :
    (exampleSession [exampleSighting "r1" "X" 2] .active).status = .active ∧
    ((resumeSession (handleToggleFinish (exampleSession [exampleSighting "r1" "X" 2] .active)
        "17:30" true)).sightings = (exampleSession [exampleSighting "r1" "X" 2] .active).sightings) ∧
    ((resumeSession (handleToggleFinish (exampleSession [exampleSighting "r1" "X" 2] .active)
        "17:30" true)).endTime = some "17:30") :=
  ⟨rfl,
    (claim_C6_finish_resume_frame (exampleSession [exampleSighting "r1" "X" 2] .active)
      "17:30" rfl).1,
    (claim_C6_finish_resume_frame (exampleSession [exampleSighting "r1" "X" 2] .active)
      "17:30" rfl).2.2.2.2.2.2.2.2.2.2.2.2.2.2⟩

/-! ### C7: editing a sighting -/

theorem map_eq_self_of_fix {α : Type} (f : α → α) (l : List α) (h : ∀ x ∈ l, f x = x) :
    l.map f = l := by
  induction l with
  | nil => rfl
  | cons x xs ih =>
      simp only [List.map_cons, h x (List.mem_cons_self x xs)]
      rw [ih (fun y hy => h y (List.mem_cons_of_mem x hy))]

/-- C7: the edit operation replaces exactly the one sighting whose id matches
the patched record (ids being unique within a session), leaving all other
sightings unchanged; when the patch supplies only a time-of-day `HH:MM`, the
date component (day index) of the original timestamp is preserved; and an
edit whose id matches no sighting leaves the sightings sequence unchanged. -/
theorem claim_C7_edit_semantics (session : Session) (editing : Sighting)
    (editTime : Option (Nat × Nat)) :
    (∀ pre x post,
        session.sightings = pre ++ x :: post →
        x.id = editing.id →
        (∀ y ∈ pre, y.id ≠ editing.id) →
        (∀ y ∈ post, y.id ≠ editing.id) →
        (handleSaveEdit session editing editTime).sightings
          = pre ++ { editing with timestamp := editUpdatedTimestamp editing editTime } :: post) ∧
    (∀ h m, editTime = some (h, m) → h < 24 → m < 60 →
        editUpdatedTimestamp editing editTime / 1440 = editing.timestamp / 1440) ∧
    ((∀ y ∈ session.sightings, y.id ≠ editing.id) →
        (handleSaveEdit session editing editTime).sightings = session.sightings) := by
  refine ⟨?_, ?_, ?_⟩
  · intro pre x post hsplit hid hpre hpost
    simp only [handleSaveEdit, hsplit, List.map_append, List.map_cons]
    rw [if_pos (by simp [hid])]
    rw [map_eq_self_of_fix _ pre (fun y hy => by simp [hpre y hy]),
        map_eq_self_of_fix _ post (fun y hy => by simp [hpost y hy])]
  · intro h m heq hh hm
    subst heq
    simp only [editUpdatedTimestamp, jsSetHours, jsSetMinutes]
    omega
  · intro hnone
    simp only [handleSaveEdit]
    exact map_eq_self_of_fix _ _ (fun y hy => by simp [hnone y hy])

def exampleEdited : Sighting :=
  { exampleSighting "r1" "X" 2 with count := 7 }

theorem claim_C7_witness :
    (handleSaveEdit
        (exampleSession [exampleSighting "r1" "X" 2, exampleSighting "r2" "Y" 3] .active)
        exampleEdited (some (2, 15))).sightings
      = [] ++ { exampleEdited with
          timestamp := editUpdatedTimestamp exampleEdited (some (2, 15)) }
          :: [exampleSighting "r2" "Y" 3] ∧
    editUpdatedTimestamp exampleEdited (some (2, 15)) / 1440
      = exampleEdited.timestamp / 1440 ∧
    (handleSaveEdit
        (exampleSession [exampleSighting "r1" "X" 2, exampleSighting "r2" "Y" 3] .active)
        exampleEdited (some (2, 15))).sightings
      = [{ exampleEdited with timestamp := 135 }, exampleSighting "r2" "Y" 3] :=
  ⟨(claim_C7_edit_semantics
      (exampleSession [exampleSighting "r1" "X" 2, exampleSighting "r2" "Y" 3] .active)
      exampleEdited (some (2, 15))).1
      [] (exampleSighting "r1" "X" 2) [exampleSighting "r2" "Y" 3] rfl rfl
      (by decide) (by decide),
   (claim_C7_edit_semantics
      (exampleSession [exampleSighting "r1" "X" 2, exampleSighting "r2" "Y" 3] .active)
      exampleEdited (some (2, 15))).2.1 2 15 rfl (by decide) (by decide),
   by decide⟩

/-! ### C1: countForSpecies -/

theorem applyAppends_active (s : Session) (hs : s.status = .active) (calls : List AppendCall) :
    applyAppends s calls
      = { s with sightings :=
            s.sightings ++ calls.map (fun c => mkSighting s c.data c.newId c.now) } := by
  induction calls generalizing s with
  | nil => simp [applyAppends]
  | cons c cs ih =>
      have hstep : addSighting s c.data c.newId c.now
          = .ok { s with sightings := s.sightings ++ [mkSighting s c.data c.newId c.now] } := by
        simp [addSighting, hs]
      have hfold : applyAppends s (c :: cs)
          = applyAppends { s with sightings := s.sightings ++ [mkSighting s c.data c.newId c.now] } cs := by
        simp [applyAppends, hstep]
      rw [hfold, ih _ (by simp [hs])]
      simp [mkSighting]

theorem countSightings_map_mk (start : Session) (calls : List AppendCall) (id : String) :
    countSightings (calls.map (fun c => mkSighting start c.data c.newId c.now)) id
      = ((calls.filter (fun c => c.data.speciesId == id)).map (fun c => c.data.count)).sum := by
  induction calls with
  | nil => simp [countSightings]
  | cons c cs ih =>
      rw [List.map_cons, countSightings_cons]
      have hsp : (mkSighting start c.data c.newId c.now).speciesId = c.data.speciesId := rfl
      have hct : (mkSighting start c.data c.newId c.now).count = c.data.count := rfl
      rw [hsp, hct, ih, List.filter_cons]
      by_cases h : c.data.speciesId == id
      · simp [h]
      · simp [h]

/-- C1: `getCountForSpecies` returns the sum of the `count` fields of exactly
the sightings whose `speciesId` matches (0 when none matches), and over any
sequence of `addSighting` calls starting from a fresh active session the
value is the sum over the appended data with that species id, hence depends
only on the multiset of appended sightings, not on their order. -/
theorem claim_C1_countForSpecies :
    (∀ (session : Session) (id : String),
        getCountForSpecies session id = specCountForSpecies session.sightings id) ∧
    (∀ (session : Session) (id : String),
        (∀ x ∈ session.sightings, x.speciesId ≠ id) → getCountForSpecies session id = 0) ∧
    (∀ (start : Session) (id : String), start.status = .active → start.sightings = [] →
        ∀ calls : List AppendCall,
          getCountForSpecies (applyAppends start calls) id
            = ((calls.filter (fun c => c.data.speciesId == id)).map
                (fun c => c.data.count)).sum) ∧
    (∀ (start : Session) (id : String), start.status = .active → start.sightings = [] →
        ∀ calls₁ calls₂ : List AppendCall, calls₁.Perm calls₂ →
          getCountForSpecies (applyAppends start calls₁) id
            = getCountForSpecies (applyAppends start calls₂) id) := by
  have key : ∀ (start : Session) (id : String), start.status = .active → start.sightings = [] →
      ∀ calls : List AppendCall,
        getCountForSpecies (applyAppends start calls) id
          = ((calls.filter (fun c => c.data.speciesId == id)).map (fun c => c.data.count)).sum := by
    intro start id hst hempty calls
    rw [getCountForSpecies, applyAppends_active start hst calls]
    simp only [hempty, List.nil_append]
    exact countSightings_map_mk start calls id
  refine ⟨?_, ?_, key, ?_⟩
  · intro session id
    exact countSightings_eq_spec session.sightings id
  · intro session id hnone
    rw [getCountForSpecies, countSightings_eq_spec, specCountForSpecies]
    rw [List.filter_eq_nil_iff.mpr (fun x hx => by simp [hnone x hx])]
    rfl
  · intro start id hst hempty calls₁ calls₂ hperm
    rw [key start id hst hempty calls₁, key start id hst hempty calls₂]
    exact ((hperm.filter _).map _).sum_eq

def exampleCalls : List AppendCall :=
  [⟨⟨"X", 3, none, none⟩, "a1", 0⟩, ⟨⟨"Y", 5, none, none⟩, "a2", 1⟩,
   ⟨⟨"X", 2, none, none⟩, "a3", 2⟩]

theorem claim_C1_witness :
    getCountForSpecies (applyAppends (exampleSession [] .active) exampleCalls) "X"
      = ((exampleCalls.filter (fun c => c.data.speciesId == "X")).map
          (fun c => c.data.count)).sum ∧
    getCountForSpecies (applyAppends (exampleSession [] .active) exampleCalls) "X" = 5 :=
  ⟨claim_C1_countForSpecies.2.2.1 (exampleSession [] .active) "X" rfl rfl exampleCalls,
   by decide⟩

/-! ### C8: trip-mode running totals -/

theorem handleSimpleIncrement_nonneg (session : Session) (sid0 : String) (amount : Int)
    (nid : String) (t : Nat)
    (hbase : ∀ id, 0 ≤ getCountForSpecies session id)
    (hamt : amount = -1 ∨ 0 < amount) :
    ∀ id, 0 ≤ getCountForSpecies (handleSimpleIncrement session sid0 amount nid t) id := by
  intro id
  by_cases hguard : amount < 0 ∧ getCountForSpecies session sid0 ≤ 0
  · simp only [handleSimpleIncrement, if_pos hguard]
    exact hbase id
  · by_cases hcomp : session.status = .completed
    · simp only [handleSimpleIncrement, if_neg hguard, addSighting, if_pos hcomp]
      exact hbase id
    · have hres : handleSimpleIncrement session sid0 amount nid t
          = { session with sightings :=
                session.sightings ++ [mkSighting session ⟨sid0, amount, none, none⟩ nid t] } := by
        simp [handleSimpleIncrement, if_neg hguard, addSighting, hcomp]
      rw [hres]
      show 0 ≤ countSightings (session.sightings ++ [mkSighting session ⟨sid0, amount, none, none⟩ nid t]) id
      rw [countSightings_append, countSightings_singleton]
      have hsp : (mkSighting session ⟨sid0, amount, none, none⟩ nid t).speciesId = sid0 := rfl
      have hct : (mkSighting session ⟨sid0, amount, none, none⟩ nid t).count = amount := rfl
      rw [hsp, hct]
      by_cases hid : sid0 == id
      · have hidEq : sid0 = id := eq_of_beq hid
        subst hidEq
        have hb := hbase sid0
        rw [if_pos (by simp)]
        rcases hamt with h1 | h1
        · have hpos : 0 < getCountForSpecies session sid0 := by
            by_contra hle
            exact hguard ⟨by omega, by omega⟩
          unfold getCountForSpecies at hpos
          omega
        · unfold getCountForSpecies at hb
          omega
      · rw [if_neg (by simpa using hid)]
        have hb := hbase id
        unfold getCountForSpecies at hb
        omega

/-- C8 (amended): in trip mode, starting from any session whose running totals
are all non-negative, any sequence of simple-increment calls in which every
amount is either positive or the unit decrement -1 (the only amounts the trip
UI issues) keeps every species' running total non-negative; and a negative
increment is refused outright (the session is returned unchanged, no sighting
appended) whenever the current running total for that species is ≤ 0. -/
theorem claim_C8_amended_trip_invariant :
    (∀ (session : Session) (calls : List IncrementCall),
        (∀ id, 0 ≤ getCountForSpecies session id) →
        (∀ c ∈ calls, c.amount = -1 ∨ 0 < c.amount) →
        ∀ id, 0 ≤ getCountForSpecies (applyIncrements session calls) id) ∧
    (∀ (session : Session) (sid : String) (amount : Int) (newId : String) (now : Nat),
        amount < 0 → getCountForSpecies session sid ≤ 0 →
        handleSimpleIncrement session sid amount newId now = session) := by
  constructor
  · intro session calls
    induction calls generalizing session with
    | nil =>
        intro hbase _ id
        exact hbase id
    | cons c cs ih =>
        intro hbase hcalls id
        have hstep := handleSimpleIncrement_nonneg session c.speciesId c.amount c.newId c.now
          hbase (hcalls c (List.mem_cons_self c cs))
        have hrec := ih (handleSimpleIncrement session c.speciesId c.amount c.newId c.now)
          hstep (fun d hd => hcalls d (List.mem_cons_of_mem c hd))
        simpa [applyIncrements] using hrec id
  · intro session sid amount newId now h1 h2
    simp only [handleSimpleIncrement]
    rw [if_pos (⟨h1, h2⟩ : amount < 0 ∧ getCountForSpecies session sid ≤ 0)]

theorem claim_C8_witness :
    0 ≤ getCountForSpecies
        (applyIncrements (exampleSession [] .active)
          [⟨"X", 1, "i1", 0⟩, ⟨"X", 1, "i2", 1⟩, ⟨"X", -1, "i3", 2⟩]) "X" ∧
    getCountForSpecies
        (applyIncrements (exampleSession [] .active)
          [⟨"X", 1, "i1", 0⟩, ⟨"X", 1, "i2", 1⟩, ⟨"X", -1, "i3", 2⟩]) "X" = 1 :=
  ⟨claim_C8_amended_trip_invariant.1 (exampleSession [] .active)
      [⟨"X", 1, "i1", 0⟩, ⟨"X", 1, "i2", 1⟩, ⟨"X", -1, "i3", 2⟩]
      (fun _ => Int.le_refl 0) (by decide) "X",
   by decide⟩

/-- C8 counterexample: with a non-unit negative amount the guard does not
prevent a negative running total: after increment +3 the decrement -5 is
accepted (the running total 3 is positive), leaving a total of -2. -/
theorem claim_C8_counterexample :
    getCountForSpecies
        (applyIncrements (exampleSession [] .active)
          [⟨"X", 3, "i1", 0⟩, ⟨"X", -5, "i2", 1⟩]) "X" = -2 ∧
    ¬ (0 ≤ getCountForSpecies
        (applyIncrements (exampleSession [] .active)
          [⟨"X", 3, "i1", 0⟩, ⟨"X", -5, "i2", 1⟩]) "X") := by
  constructor <;> decide

/-! ### C4: the filtered and sorted species listing -/

theorem containsSublist_nil (l : List Char) : containsSublist [] l = true := by
  cases l <;> simp [containsSublist, List.isPrefixOf]

theorem speciesMatches_empty (sp : Species) : speciesMatches "" sp = true := by
  unfold speciesMatches jsIncludes
  have h0 : jsToLower "" = [] := rfl
  rw [h0, containsSublist_nil]
  simp

theorem compareChars_vals (as bs : List Char) :
    compareChars as bs = -1 ∨ compareChars as bs = 0 ∨ compareChars as bs = 1 := by
  induction as generalizing bs with
  | nil => cases bs <;> simp [compareChars]
  | cons a as ih =>
      cases bs with
      | nil => simp [compareChars]
      | cons b bs =>
          simp only [compareChars]
          by_cases hab : a < b
          · simp [hab]
          · by_cases hba : b < a
            · simp [hab, hba]
            · simpa [hab, hba] using ih bs

theorem compareChars_swap (as bs : List Char) :
    compareChars bs as = -compareChars as bs := by
  induction as generalizing bs with
  | nil => cases bs <;> simp [compareChars]
  | cons a as ih =>
      cases bs with
      | nil => simp [compareChars]
      | cons b bs =>
          simp only [compareChars]
          by_cases hab : a < b
          · rw [if_neg (asymm hab), if_pos hab]
            simp [hab]
          · by_cases hba : b < a
            · rw [if_pos hba]
              simp [hab, hba]
            · rw [if_neg hba, if_neg hab]
              simp [hab, hba, ih bs]

theorem compareChars_neg_one_iff (as bs : List Char) :
    compareChars as bs = -1 ↔ as < bs := by
  induction as generalizing bs with
  | nil =>
      cases bs with
      | nil =>
          refine iff_of_false ?_ ?_
          · show ¬ ((0 : Int) = -1)
            omega
          · intro h
            cases h
      | cons b bs =>
          exact iff_of_true rfl (List.Lex.nil)
  | cons a as ih =>
      cases bs with
      | nil =>
          refine iff_of_false ?_ ?_
          · show ¬ ((1 : Int) = -1)
            omega
          · intro h
            cases h
      | cons b bs =>
          show (if a < b then (-1 : Int) else if b < a then 1 else compareChars as bs) = -1
            ↔ a :: as < b :: bs
          by_cases hab : a < b
          · rw [if_pos hab]
            exact iff_of_true rfl (List.Lex.rel hab)
          · by_cases hba : b < a
            · rw [if_neg hab, if_pos hba]
              refine iff_of_false (by omega) ?_
              intro h
              cases h with
              | rel h1 => exact hab h1
              | cons h3 => exact lt_irrefl a hba
            · have hEq : a = b := le_antisymm (not_lt.mp hba) (not_lt.mp hab)
              subst hEq
              rw [if_neg hab, if_neg hba, ih bs]
              constructor
              · intro h
                exact List.Lex.cons h
              · intro h
                cases h with
                | rel h1 => exact absurd h1 hab
                | cons h3 => exact h3

theorem compareName_le_iff (a b : String) : compareName a b ≤ 0 ↔ a ≤ b := by
  unfold compareName
  have hswap := compareChars_swap a.toList b.toList
  have hvals := compareChars_vals a.toList b.toList
  have hlt : b < a ↔ b.toList < a.toList := String.lt_iff_toList_lt
  have hle : a ≤ b ↔ ¬ b < a := not_lt.symm
  rw [hle, hlt, ← compareChars_neg_one_iff b.toList a.toList, hswap]
  omega

/-- The group a species falls into for the catalogue sort: 0 when it has a
positive running total for the session, 1 otherwise. -/
def speciesRank (session : Session) (sp : Species) : Nat :=
  if 0 < getCountForSpecies session sp.id then 0 else 1

theorem cmpSpecies_le_iff (session : Session) (a b : Species)
    (ha : 0 ≤ getCountForSpecies session a.id) (hb : 0 ≤ getCountForSpecies session b.id) :
    (cmpSpecies session a b ≤ 0
      ↔ (speciesRank session a < speciesRank session b
         ∨ (speciesRank session a = speciesRank session b ∧ a.name ≤ b.name))) := by
  unfold cmpSpecies speciesRank
  by_cases hA : 0 < getCountForSpecies session a.id
  · by_cases hB : 0 < getCountForSpecies session b.id
    · rw [if_neg (by omega), if_neg (by omega), if_pos hA, if_pos hB]
      rw [compareName_le_iff]
      simp
    · have hB0 : getCountForSpecies session b.id = 0 := by omega
      rw [if_pos ⟨by omega, hB0⟩, if_pos hA, if_neg hB]
      simp
  · have hA0 : getCountForSpecies session a.id = 0 := by omega
    by_cases hB : 0 < getCountForSpecies session b.id
    · rw [if_neg (by omega), if_pos ⟨hB, hA0⟩, if_neg hA, if_pos hB]
      simp
    · rw [if_neg (by omega), if_neg (by omega), if_neg hA, if_neg hB]
      rw [compareName_le_iff]
      simp

/-- C4 (amended): provided no species has a negative running total for the
session (as the trip-mode guard maintains even when unit-decrement sightings
are present), the sorted species listing is a permutation of exactly the
catalogue entries matching the search term (all of them when the term is
empty), and it is ordered so that every species with a positive running total
precedes every species with zero total, alphabetically by name within each
group.  (With a negative total the code's comparator falls through to the
name comparison, so the original "non-zero before zero" phrasing fails; see
the counterexample.) -/
theorem claim_C4_amended_sorted_catalogue (speciesList : List Species) (searchTerm : String)
    (session : Session)
    (hcounts : ∀ id, 0 ≤ getCountForSpecies session id) :
    (filteredAndSortedSpecies speciesList searchTerm session).Perm
      (speciesList.filter (speciesMatches searchTerm)) ∧
    (∀ sp, sp ∈ filteredAndSortedSpecies speciesList searchTerm session
      ↔ sp ∈ speciesList ∧ speciesMatches searchTerm sp = true) ∧
    (searchTerm = "" →
      (filteredAndSortedSpecies speciesList searchTerm session).Perm speciesList) ∧
    (filteredAndSortedSpecies speciesList searchTerm session).Pairwise
      (fun a b => speciesRank session a < speciesRank session b
        ∨ (speciesRank session a = speciesRank session b ∧ a.name ≤ b.name)) := by
  have hn : ∀ id, 0 ≤ getCountForSpecies session id := hcounts
  have hperm : (filteredAndSortedSpecies speciesList searchTerm session).Perm
      (speciesList.filter (speciesMatches searchTerm)) :=
    List.perm_insertionSort _ _
  refine ⟨hperm, ?_, ?_, ?_⟩
  · intro sp
    rw [hperm.mem_iff, List.mem_filter]
  · intro hempty
    subst hempty
    have hall : speciesList.filter (speciesMatches "") = speciesList :=
      List.filter_eq_self.mpr (fun x _ => speciesMatches_empty x)
    have hgoal := hperm
    rw [hall] at hgoal
    exact hgoal
  · haveI : IsTotal Species (fun x y => cmpSpecies session x y ≤ 0) := by
      constructor
      intro x y
      rw [cmpSpecies_le_iff session x y (hn x.id) (hn y.id),
          cmpSpecies_le_iff session y x (hn y.id) (hn x.id)]
      rcases Nat.lt_trichotomy (speciesRank session x) (speciesRank session y) with hr | hr | hr
      · exact Or.inl (Or.inl hr)
      · rcases le_total x.name y.name with hnm | hnm
        · exact Or.inl (Or.inr ⟨hr, hnm⟩)
        · exact Or.inr (Or.inr ⟨hr.symm, hnm⟩)
      · exact Or.inr (Or.inl hr)
    haveI : IsTrans Species (fun x y => cmpSpecies session x y ≤ 0) := by
      constructor
      intro x y z hxy hyz
      rw [cmpSpecies_le_iff session x y (hn x.id) (hn y.id)] at hxy
      rw [cmpSpecies_le_iff session y z (hn y.id) (hn z.id)] at hyz
      rw [cmpSpecies_le_iff session x z (hn x.id) (hn z.id)]
      rcases hxy with h1 | ⟨h1, h1n⟩ <;> rcases hyz with h2 | ⟨h2, h2n⟩
      · exact Or.inl (h1.trans h2)
      · exact Or.inl (h2 ▸ h1)
      · exact Or.inl (h1 ▸ h2)
      · exact Or.inr ⟨h1.trans h2, le_trans h1n h2n⟩
    have hs := List.sorted_insertionSort (fun x y => cmpSpecies session x y ≤ 0)
      (speciesList.filter (speciesMatches searchTerm))
    exact hs.imp (fun hab => (cmpSpecies_le_iff session _ _ (hn _) (hn _)).mp hab)

def exampleCatalogue : List Species :=
  [⟨"A", "Robin", "ROB", none⟩, ⟨"B", "Crow", "CRO", none⟩]

theorem claim_C4_witness :
    (filteredAndSortedSpecies exampleCatalogue ""
        (exampleSession [exampleSighting "c1" "B" 1] .active)).Perm exampleCatalogue ∧
    filteredAndSortedSpecies exampleCatalogue ""
        (exampleSession [exampleSighting "c1" "B" 1] .active)
      = [⟨"B", "Crow", "CRO", none⟩, ⟨"A", "Robin", "ROB", none⟩] :=
  ⟨(claim_C4_amended_sorted_catalogue exampleCatalogue ""
      (exampleSession [exampleSighting "c1" "B" 1] .active)
      (fun id => countSightings_nonneg _ id (by decide))).2.2.1 rfl,
   by decide⟩

/-- C4 counterexample: a species whose running total is negative (non-zero)
does not precede the zero-count species — the comparator only promotes
strictly positive totals, so "Zebra" with total -1 sorts after "Apple" with
total 0 by name. -/
theorem claim_C4_counterexample :
    filteredAndSortedSpecies [⟨"1", "Apple", "AP", none⟩, ⟨"2", "Zebra", "ZE", none⟩] ""
        (exampleSession [exampleSighting "n1" "2" (-1)] .active)
      = [⟨"1", "Apple", "AP", none⟩, ⟨"2", "Zebra", "ZE", none⟩] ∧
    getCountForSpecies (exampleSession [exampleSighting "n1" "2" (-1)] .active) "2" ≠ 0 ∧
    getCountForSpecies (exampleSession [exampleSighting "n1" "2" (-1)] .active) "1" = 0 ∧
    ¬ (filteredAndSortedSpecies [⟨"1", "Apple", "AP", none⟩, ⟨"2", "Zebra", "ZE", none⟩] ""
        (exampleSession [exampleSighting "n1" "2" (-1)] .active)).Pairwise
        (fun a b =>
          getCountForSpecies (exampleSession [exampleSighting "n1" "2" (-1)] .active) b.id ≠ 0 →
          getCountForSpecies (exampleSession [exampleSighting "n1" "2" (-1)] .active) a.id ≠ 0) := by
  refine ⟨by decide, by decide, by decide, ?_⟩
  intro hp
  rw [(by decide : filteredAndSortedSpecies
      [⟨"1", "Apple", "AP", none⟩, ⟨"2", "Zebra", "ZE", none⟩] ""
      (exampleSession [exampleSighting "n1" "2" (-1)] .active)
      = [⟨"1", "Apple", "AP", none⟩, ⟨"2", "Zebra", "ZE", none⟩])] at hp
  have h1 := (List.pairwise_cons.mp hp).1 ⟨"2", "Zebra", "ZE", none⟩ (by simp)
  have h2 := h1 (by decide)
  exact h2 (by decide)

/-! ### C3: the report summary -/

/-- The value stored under a key of the aggregation record (0 when absent),
i.e. `speciesCounts[k] || 0`. -/
def recordValue (m : List (String × Int)) (k : String) : Int :=
  ((m.find? (fun p => p.1 == k)).map (fun p => p.2)).getD 0

theorem recordValue_nil (k : String) : recordValue [] k = 0 := rfl

theorem recordValue_cons_same (k : String) (v : Int) (rest : List (String × Int)) :
    recordValue ((k, v) :: rest) k = v := by
  unfold recordValue
  rw [List.find?_cons_of_pos _ (by simp)]
  rfl

theorem recordValue_cons_ne (k' k : String) (v' : Int) (rest : List (String × Int))
    (h : k' ≠ k) : recordValue ((k', v') :: rest) k = recordValue rest k := by
  unfold recordValue
  rw [List.find?_cons_of_neg _ (by simpa using h)]

theorem jsRecordAdd_cons_same (k : String) (v' v : Int) (rest : List (String × Int)) :
    jsRecordAdd ((k, v') :: rest) k v = (k, v' + v) :: rest := by
  simp [jsRecordAdd]

theorem jsRecordAdd_cons_ne (k' k : String) (v' v : Int) (rest : List (String × Int))
    (h : k' ≠ k) : jsRecordAdd ((k', v') :: rest) k v = (k', v') :: jsRecordAdd rest k v := by
  simp [jsRecordAdd, h]

theorem recordValue_jsRecordAdd_same (m : List (String × Int)) (k : String) (v : Int) :
    recordValue (jsRecordAdd m k v) k = recordValue m k + v := by
  induction m with
  | nil =>
      show recordValue [(k, v)] k = recordValue [] k + v
      rw [recordValue_cons_same, recordValue_nil]
      omega
  | cons p rest ih =>
      obtain ⟨k', v'⟩ := p
      by_cases h : k' = k
      · subst h
        rw [jsRecordAdd_cons_same, recordValue_cons_same, recordValue_cons_same]
      · rw [jsRecordAdd_cons_ne _ _ _ _ _ h,
            recordValue_cons_ne _ _ _ _ h, recordValue_cons_ne _ _ _ _ h]
        exact ih

theorem recordValue_jsRecordAdd_ne (m : List (String × Int)) (k k0 : String) (v : Int)
    (h : k0 ≠ k) : recordValue (jsRecordAdd m k v) k0 = recordValue m k0 := by
  induction m with
  | nil =>
      show recordValue [(k, v)] k0 = recordValue [] k0
      rw [recordValue_cons_ne _ _ _ _ (Ne.symm h)]
  | cons p rest ih =>
      obtain ⟨k', v'⟩ := p
      by_cases hk : k' = k
      · subst hk
        rw [jsRecordAdd_cons_same,
            recordValue_cons_ne _ _ _ _ (Ne.symm h), recordValue_cons_ne _ _ _ _ (Ne.symm h)]
      · rw [jsRecordAdd_cons_ne _ _ _ _ _ hk]
        by_cases hk0 : k' = k0
        · subst hk0
          rw [recordValue_cons_same, recordValue_cons_same]
        · rw [recordValue_cons_ne _ _ _ _ hk0, recordValue_cons_ne _ _ _ _ hk0]
          exact ih

theorem keys_jsRecordAdd_mem (m : List (String × Int)) (k k0 : String) (v : Int) :
    k0 ∈ (jsRecordAdd m k v).map Prod.fst ↔ k0 ∈ m.map Prod.fst ∨ k0 = k := by
  induction m with
  | nil => simp [jsRecordAdd]
  | cons p rest ih =>
      obtain ⟨k', v'⟩ := p
      by_cases h : k' = k
      · subst h
        rw [jsRecordAdd_cons_same]
        simp only [List.map_cons, List.mem_cons]
        constructor
        · intro hc
          rcases hc with hc | hc
          · exact Or.inl (Or.inl hc)
          · exact Or.inl (Or.inr hc)
        · intro hc
          rcases hc with (hc | hc) | hc
          · exact Or.inl hc
          · exact Or.inr hc
          · exact Or.inl hc
      · rw [jsRecordAdd_cons_ne _ _ _ _ _ h]
        simp only [List.map_cons, List.mem_cons, ih]
        constructor
        · intro hc
          rcases hc with hc | hc | hc
          · exact Or.inl (Or.inl hc)
          · exact Or.inl (Or.inr hc)
          · exact Or.inr hc
        · intro hc
          rcases hc with (hc | hc) | hc
          · exact Or.inl hc
          · exact Or.inr (Or.inl hc)
          · exact Or.inr (Or.inr hc)

theorem keys_jsRecordAdd_nodup (m : List (String × Int)) (k : String) (v : Int)
    (h : (m.map Prod.fst).Nodup) : ((jsRecordAdd m k v).map Prod.fst).Nodup := by
  induction m with
  | nil => simp [jsRecordAdd]
  | cons p rest ih =>
      obtain ⟨k', v'⟩ := p
      simp only [List.map_cons, List.nodup_cons] at h
      by_cases hk : k' = k
      · subst hk
        rw [jsRecordAdd_cons_same]
        simp only [List.map_cons, List.nodup_cons]
        exact ⟨h.1, h.2⟩
      · rw [jsRecordAdd_cons_ne _ _ _ _ _ hk]
        simp only [List.map_cons, List.nodup_cons]
        constructor
        · rw [keys_jsRecordAdd_mem]
          rintro (hm | he)
          · exact h.1 hm
          · exact hk he
        · exact ih h.2

theorem recordValue_fold (l : List Sighting) (m : List (String × Int)) (k : String) :
    recordValue (l.foldl (fun m s => jsRecordAdd m s.speciesId s.count) m) k
      = recordValue m k + countSightings l k := by
  induction l generalizing m with
  | nil =>
      show recordValue m k = recordValue m k + countSightings [] k
      have : countSightings [] k = 0 := rfl
      omega
  | cons x xs ih =>
      rw [List.foldl_cons, ih, countSightings_cons]
      by_cases h : x.speciesId == k
      · have hxe : x.speciesId = k := eq_of_beq h
        rw [if_pos h, hxe, recordValue_jsRecordAdd_same]
        omega
      · have hne : k ≠ x.speciesId := fun he => absurd (beq_iff_eq.mpr he.symm) h
        rw [if_neg h, recordValue_jsRecordAdd_ne _ _ _ _ hne]
        omega

theorem keys_fold_mem (l : List Sighting) (m : List (String × Int)) (k : String) :
    k ∈ (l.foldl (fun m s => jsRecordAdd m s.speciesId s.count) m).map Prod.fst
      ↔ k ∈ m.map Prod.fst ∨ k ∈ l.map (fun s => s.speciesId) := by
  induction l generalizing m with
  | nil => simp
  | cons x xs ih =>
      rw [List.foldl_cons, ih, keys_jsRecordAdd_mem]
      simp only [List.map_cons, List.mem_cons]
      constructor
      · intro hc
        rcases hc with (hc | hc) | hc
        · exact Or.inl hc
        · exact Or.inr (Or.inl hc)
        · exact Or.inr (Or.inr hc)
      · intro hc
        rcases hc with hc | hc | hc
        · exact Or.inl (Or.inl hc)
        · exact Or.inl (Or.inr hc)
        · exact Or.inr hc

theorem keys_fold_nodup (l : List Sighting) (m : List (String × Int))
    (h : (m.map Prod.fst).Nodup) :
    ((l.foldl (fun m s => jsRecordAdd m s.speciesId s.count) m).map Prod.fst).Nodup := by
  induction l generalizing m with
  | nil => exact h
  | cons x xs ih =>
      rw [List.foldl_cons]
      exact ih _ (keys_jsRecordAdd_nodup _ _ _ h)

theorem assoc_entry_value (m : List (String × Int)) (p : String × Int) (hp : p ∈ m)
    (h : (m.map Prod.fst).Nodup) : p.2 = recordValue m p.1 := by
  induction m with
  | nil => cases hp
  | cons q rest ih =>
      obtain ⟨k', v'⟩ := q
      simp only [List.map_cons, List.nodup_cons] at h
      rcases List.mem_cons.mp hp with he | hm
      · subst he
        rw [recordValue_cons_same]
      · have hne : k' ≠ p.1 := fun he => h.1 (he ▸ List.mem_map_of_mem Prod.fst hm)
        rw [recordValue_cons_ne _ _ _ _ hne]
        exact ih hm h.2

/-- C3 (amended): the report summary computes totalBirds as the sum of count
over all sightings, uniqueSpeciesCount as the number of distinct speciesId
values present, and a per-species breakdown (one row per distinct species)
whose count column is the per-species total, sorted by descending total count
with ties kept in the aggregation record's key order (first occurrence; not
broken by species name ascending), and with a speciesId not found in the
catalogue rendered with the literal label "Unknown" rather than omitted. -/
theorem claim_C3_amended_report_summary (session : Session) (speciesList : List Species) :
    totalBirds session = (session.sightings.map (fun s => s.count)).sum ∧
    uniqueSpecies session = (session.sightings.map (fun s => s.speciesId)).toFinset.card ∧
    ((sortedSpecies session speciesList).map (fun e => e.id)).Nodup ∧
    (∀ id0, id0 ∈ (sortedSpecies session speciesList).map (fun e => e.id)
      ↔ id0 ∈ session.sightings.map (fun s => s.speciesId)) ∧
    (∀ e ∈ sortedSpecies session speciesList, e.count = getCountForSpecies session e.id) ∧
    (∀ e ∈ sortedSpecies session speciesList,
      (∀ sp ∈ speciesList, sp.id ≠ e.id) → e.name = "Unknown") ∧
    (∀ e ∈ sortedSpecies session speciesList,
      ∀ sp, speciesList.find? (fun x => x.id == e.id) = some sp → e.name = sp.name) ∧
    (sortedSpecies session speciesList).Pairwise (fun a b => b.count ≤ a.count) ∧
    (∀ p q : String × Int, p.2 = q.2 → [p, q].Sublist (speciesCounts session) →
      [mkReportEntry speciesList p, mkReportEntry speciesList q].Sublist
        (sortedSpecies session speciesList)) := by
  have hperm : (List.insertionSort (fun p q : String × Int => q.2 ≤ p.2)
      (speciesCounts session)).Perm (speciesCounts session) :=
    List.perm_insertionSort _ _
  have hkeysnodup : ((speciesCounts session).map Prod.fst).Nodup :=
    keys_fold_nodup _ [] (by simp)
  have hval : ∀ k, recordValue (speciesCounts session) k = countSightings session.sightings k := by
    intro k
    have h := recordValue_fold session.sightings [] k
    rw [recordValue_nil] at h
    simpa using h
  have hmapid : (sortedSpecies session speciesList).map (fun e => e.id)
      = (List.insertionSort (fun p q : String × Int => q.2 ≤ p.2)
          (speciesCounts session)).map Prod.fst := by
    unfold sortedSpecies
    rw [List.map_map]
    rfl
  refine ⟨?_, ?_, ?_, ?_, ?_, ?_, ?_, ?_, ?_⟩
  · unfold totalBirds
    rw [foldl_add_count]
    omega
  · exact (List.card_toFinset _).symm
  · rw [hmapid]
    exact ((hperm.map Prod.fst).nodup_iff).mpr hkeysnodup
  · intro id0
    rw [hmapid, (hperm.map Prod.fst).mem_iff]
    have h := keys_fold_mem session.sightings [] id0
    simpa using h
  · intro e he
    obtain ⟨p, hp, rfl⟩ := List.mem_map.mp he
    have hp2 : p ∈ speciesCounts session := hperm.subset hp
    have hv := assoc_entry_value _ p hp2 hkeysnodup
    show p.2 = getCountForSpecies session p.1
    rw [hv, hval]
    rfl
  · intro e he hnone
    obtain ⟨p, hp, rfl⟩ := List.mem_map.mp he
    have hfind : speciesList.find? (fun sp => sp.id == p.1) = none :=
      List.find?_eq_none.mpr (fun x hx => by simpa using hnone x hx)
    show ((speciesList.find? (fun sp => sp.id == p.1)).map (fun sp => sp.name)).getD "Unknown"
      = "Unknown"
    rw [hfind]
    rfl
  · intro e he sp hfind
    obtain ⟨p, hp, rfl⟩ := List.mem_map.mp he
    have hid : (mkReportEntry speciesList p).id = p.1 := rfl
    rw [hid] at hfind
    show ((speciesList.find? (fun sp => sp.id == p.1)).map (fun sp => sp.name)).getD "Unknown"
      = sp.name
    rw [hfind]
    rfl
  · haveI : IsTotal (String × Int) (fun p q => q.2 ≤ p.2) := ⟨fun p q => le_total q.2 p.2⟩
    haveI : IsTrans (String × Int) (fun p q => q.2 ≤ p.2) :=
      ⟨fun _ _ _ hab hbc => le_trans hbc hab⟩
    have hs := List.sorted_insertionSort (fun p q : String × Int => q.2 ≤ p.2)
      (speciesCounts session)
    unfold sortedSpecies
    rw [List.pairwise_map]
    exact hs.imp (fun h => h)
  · intro p q hpq hsub
    have hr : (fun p q : String × Int => q.2 ≤ p.2) p q := le_of_eq hpq.symm
    have hsorted := @List.pair_sublist_insertionSort (String × Int)
      (fun p q => q.2 ≤ p.2) (fun _ _ => inferInstance) p q (speciesCounts session) hr hsub
    exact hsorted.map (mkReportEntry speciesList)

def exampleReportSession : Session :=
  exampleSession [exampleSighting "t1" "X" 3, exampleSighting "t2" "X" 2,
    exampleSighting "t3" "Y" 5] .completed

def exampleReportCatalogue : List Species :=
  [⟨"X", "Xbill", "XB", none⟩, ⟨"Y", "Ygull", "YG", none⟩]

theorem claim_C3_witness :
    totalBirds exampleReportSession
      = (exampleReportSession.sightings.map (fun s => s.count)).sum ∧
    totalBirds exampleReportSession = 10 ∧
    uniqueSpecies exampleReportSession = 2 ∧
    sortedSpecies exampleReportSession exampleReportCatalogue
      = [⟨"Xbill", 5, "X"⟩, ⟨"Ygull", 5, "Y"⟩] :=
  ⟨(claim_C3_amended_report_summary exampleReportSession exampleReportCatalogue).1,
   by decide, by decide, by decide⟩

def exampleTieSession : Session :=
  exampleSession [exampleSighting "a" "1" 5, exampleSighting "b" "2" 5] .completed

def exampleTieCatalogue : List Species :=
  [⟨"1", "Zebra", "ZB", none⟩, ⟨"2", "Albatross", "AL", none⟩]

/-- C3 counterexample: two species tie at total count 5; the breakdown keeps
the aggregation record's key order ("Zebra" first), not species name
ascending ("Albatross" would come first). -/
theorem claim_C3_counterexample :
    sortedSpecies exampleTieSession exampleTieCatalogue
      = [⟨"Zebra", 5, "1"⟩, ⟨"Albatross", 5, "2"⟩] ∧
    "Albatross" < "Zebra" ∧
    ¬ (sortedSpecies exampleTieSession exampleTieCatalogue).Pairwise
        (fun a b => a.count = b.count → a.name ≤ b.name) := by
  have hlt : "Albatross" < "Zebra" := String.lt_iff_toList_lt.mpr (List.Lex.rel (by decide))
  refine ⟨by decide, hlt, ?_⟩
  intro hp
  rw [(by decide : sortedSpecies exampleTieSession exampleTieCatalogue
      = [⟨"Zebra", 5, "1"⟩, ⟨"Albatross", 5, "2"⟩])] at hp
  have h1 := (List.pairwise_cons.mp hp).1 ⟨"Albatross", 5, "2"⟩ (by simp)
  have h2 := h1 rfl
  exact absurd h2 (not_le.mpr hlt)

/-! ### C9: file import -/

theorem find_jsSetField_same (fields : List (String × Json)) (k : String) (v : Json) :
    (jsSetField fields k v).find? (fun p => p.1 == k) = some (k, v) := by
  induction fields with
  | nil => simp [jsSetField, List.find?]
  | cons p rest ih =>
      obtain ⟨k', v'⟩ := p
      by_cases h : k' == k
      · simp only [jsSetField, if_pos h]
        simp [List.find?]
      · simp only [jsSetField, if_neg h]
        rw [List.find?_cons_of_neg _ (by simpa using h)]
        exact ih

theorem find_jsSetField_ne (fields : List (String × Json)) (k k0 : String) (v : Json)
    (h : k0 ≠ k) :
    (jsSetField fields k v).find? (fun p => p.1 == k0)
      = fields.find? (fun p => p.1 == k0) := by
  induction fields with
  | nil =>
      simp only [jsSetField]
      rw [List.find?_cons_of_neg _ (by simpa using Ne.symm h)]
  | cons p rest ih =>
      obtain ⟨k', v'⟩ := p
      by_cases hk : k' == k
      · have hk' : k' = k := eq_of_beq hk
        simp only [jsSetField, if_pos hk]
        rw [List.find?_cons_of_neg _ (by simpa using Ne.symm h),
            List.find?_cons_of_neg _ (by simp [hk', Ne.symm h])]
      · simp only [jsSetField, if_neg hk]
        by_cases hk0 : k' == k0
        · rw [List.find?_cons_of_pos _ (by simpa using hk0),
              List.find?_cons_of_pos _ (by simpa using hk0)]
        · rw [List.find?_cons_of_neg _ (by simpa using hk0),
              List.find?_cons_of_neg _ (by simpa using hk0)]
          exact ih

theorem jsGet_mkImported_id (fields : List (String × Json)) (newId : String) :
    jsGet (mkImported (.jobj fields) newId) "id" = some (.jstr newId) := by
  show ((jsSetField (jsSetField fields "id" (.jstr newId)) "name" _).find?
    (fun p => p.1 == "id")).map (fun p => p.2) = _
  rw [find_jsSetField_ne _ _ _ _ (by decide), find_jsSetField_same]
  rfl

theorem jsGet_mkImported_name (fields : List (String × Json)) (newId : String) :
    jsGet (mkImported (.jobj fields) newId) "name"
      = some (.jstr (jsCoerceString (jsGet (.jobj fields) "name") ++ " (Imported)")) := by
  show ((jsSetField (jsSetField fields "id" (.jstr newId)) "name" _).find?
    (fun p => p.1 == "name")).map (fun p => p.2) = _
  rw [find_jsSetField_same]
  rfl

theorem jsGet_mkImported_other (fields : List (String × Json)) (newId : String) (k : String)
    (h1 : k ≠ "id") (h2 : k ≠ "name") :
    jsGet (mkImported (.jobj fields) newId) k = jsGet (.jobj fields) k := by
  show ((jsSetField (jsSetField fields "id" (.jstr newId)) "name" _).find?
    (fun p => p.1 == k)).map (fun p => p.2) = _
  rw [find_jsSetField_ne _ _ _ _ h2, find_jsSetField_ne _ _ _ _ h1]
  rfl

theorem jsTruthy_ne_none (x : Option Json) (h : jsTruthy x = true) : x ≠ none := by
  cases x with
  | none => simp [jsTruthy] at h
  | some v => simp

theorem jsGet_obj_of_truthy (json : Json) (k : String) (h : jsTruthy (jsGet json k) = true) :
    ∃ fields, json = .jobj fields := by
  cases json with
  | jobj fields => exact ⟨fields, rfl⟩
  | jnull => simp [jsGet, jsTruthy] at h
  | jbool b => simp [jsGet, jsTruthy] at h
  | jnum n => simp [jsGet, jsTruthy] at h
  | jstr s => simp [jsGet, jsTruthy] at h
  | jarr elems => simp [jsGet, jsTruthy] at h

/-- C9: a JSON document is accepted as a new session only if it has both an
`id` and a `sightings` field; on success the imported session is prepended,
re-keyed with the newly generated id, with " (Imported)" appended to its name
and every other field kept, and the pre-existing sessions are unchanged; on
failure (parse error or missing/falsy field) the collection is entirely
unchanged and a non-success outcome is signalled. -/
theorem claim_C9_import :
    (∀ (sessions : List Json) (parsed : Except Unit Json) (newId : String),
        (handleFileImport sessions parsed newId).2 = .success →
        ∃ json, parsed = .ok json ∧
          jsGet json "id" ≠ none ∧ jsGet json "sightings" ≠ none ∧
          (handleFileImport sessions parsed newId).1 = mkImported json newId :: sessions ∧
          jsGet (mkImported json newId) "id" = some (.jstr newId) ∧
          (∀ s, jsGet json "name" = some (.jstr s) →
            jsGet (mkImported json newId) "name" = some (.jstr (s ++ " (Imported)"))) ∧
          (∀ k, k ≠ "id" → k ≠ "name" → jsGet (mkImported json newId) k = jsGet json k)) ∧
    (∀ (sessions : List Json) (parsed : Except Unit Json) (newId : String),
        (handleFileImport sessions parsed newId).2 ≠ .success →
        (handleFileImport sessions parsed newId).1 = sessions) := by
  constructor
  · intro sessions parsed newId hsucc
    cases parsed with
    | error e => simp [handleFileImport] at hsucc
    | ok json =>
        by_cases hcond :
            (jsTruthy (jsGet json "id") && jsTruthy (jsGet json "sightings")) = true
        · have hcons : (handleFileImport sessions (.ok json) newId).1
              = mkImported json newId :: sessions := by
            simp [handleFileImport, hcond]
          have hid := (Bool.and_eq_true _ _).mp hcond
          obtain ⟨fields, rfl⟩ := jsGet_obj_of_truthy json "id" hid.1
          refine ⟨_, rfl, jsTruthy_ne_none _ hid.1, jsTruthy_ne_none _ hid.2, hcons,
            jsGet_mkImported_id fields newId, ?_, ?_⟩
          · intro s hs
            rw [jsGet_mkImported_name fields newId, hs]
            rfl
          · intro k h1 h2
            exact jsGet_mkImported_other fields newId k h1 h2
        · simp [handleFileImport, hcond] at hsucc
  · intro sessions parsed newId hfail
    cases parsed with
    | error e => simp [handleFileImport]
    | ok json =>
        by_cases hcond :
            (jsTruthy (jsGet json "id") && jsTruthy (jsGet json "sightings")) = true
        · exact absurd (by simp [handleFileImport, hcond]) hfail
        · simp [handleFileImport, hcond]

def exampleImportDoc : Json :=
  .jobj [("id", .jstr "5"), ("name", .jstr "Trip"), ("sightings", .jarr [])]

theorem claim_C9_witness :
    (handleFileImport [] (.error ()) "99").1 = ([] : List Json) ∧
    (handleFileImport [] (.ok exampleImportDoc) "99").1
      = mkImported exampleImportDoc "99" :: [] ∧
    jsGet (mkImported exampleImportDoc "99") "name" = some (.jstr "Trip (Imported)") := by
  refine ⟨claim_C9_import.2 [] (.error ()) "99" (by decide), ?_, ?_⟩
  · obtain ⟨json, hparsed, _, _, hcons, _, _, _⟩ :=
      claim_C9_import.1 [] (.ok exampleImportDoc) "99" rfl
    injection hparsed with h
    subst h
    exact hcons
  · obtain ⟨json, hparsed, _, _, _, _, hname, _⟩ :=
      claim_C9_import.1 [] (.ok exampleImportDoc) "99" rfl
    injection hparsed with h
    subst h
    exact hname "Trip" rfl

/-! ### C10: the location history -/

theorem handleStartSession_history (sessions : List Session) (history : List String)
    (input : NewSessionData) (newId : String) :
    (handleStartSession sessions history input newId).2
      = if input.name != "" && !(history.contains input.name)
        then (input.name :: history).take 10 else history := rfl

/-- C10 (amended): starting from a distinct history of at most 10 entries (in
particular the empty one), any sequence of session creations keeps the
location history distinct, of length at most 10, and containing only names
used by some creation (or already present); creating a session with a
non-empty name not in the history prepends that name and truncates to 10
entries; but a name already present is left in place — the history is not
reordered, so the head is the most recently newly-added name, not necessarily
the most recently used one. -/
theorem claim_C10_amended_location_history :
    (∀ (inputs : List (NewSessionData × String)) (sessions : List Session)
        (history : List String),
        history.Nodup → history.length ≤ 10 →
        (applyCreations sessions history inputs).2.Nodup ∧
        (applyCreations sessions history inputs).2.length ≤ 10 ∧
        (∀ n ∈ (applyCreations sessions history inputs).2,
          n ∈ history ∨ ∃ c ∈ inputs, (c : NewSessionData × String).1.name = n)) ∧
    (∀ (sessions : List Session) (history : List String) (input : NewSessionData)
        (newId : String),
        input.name ≠ "" → input.name ∉ history →
        (handleStartSession sessions history input newId).2
          = (input.name :: history).take 10) ∧
    (∀ (sessions : List Session) (history : List String) (input : NewSessionData)
        (newId : String),
        input.name ∈ history →
        (handleStartSession sessions history input newId).2 = history) := by
  refine ⟨?_, ?_, ?_⟩
  · intro inputs
    induction inputs with
    | nil =>
        intro sessions history hnd hlen
        exact ⟨hnd, hlen, fun n hn => Or.inl hn⟩
    | cons c cs ih =>
        intro sessions history hnd hlen
        have hfold : applyCreations sessions history (c :: cs)
            = applyCreations (handleStartSession sessions history c.1 c.2).1
                (handleStartSession sessions history c.1 c.2).2 cs := by
          simp [applyCreations]
        have hstep : (handleStartSession sessions history c.1 c.2).2.Nodup ∧
            (handleStartSession sessions history c.1 c.2).2.length ≤ 10 ∧
            (∀ n ∈ (handleStartSession sessions history c.1 c.2).2,
              n ∈ history ∨ n = c.1.name) := by
          rw [handleStartSession_history]
          by_cases hcond : (c.1.name != "" && !(history.contains c.1.name)) = true
          · rw [if_pos hcond]
            have hnotmem : c.1.name ∉ history := by
              have h2 := ((Bool.and_eq_true _ _).mp hcond).2
              simpa using h2
            refine ⟨((c.1.name :: history).take_sublist 10).nodup ?_,
              List.length_take_le 10 _, ?_⟩
            · exact List.nodup_cons.mpr ⟨hnotmem, hnd⟩
            · intro n hn
              have hn2 := ((c.1.name :: history).take_sublist 10).mem hn
              rcases List.mem_cons.mp hn2 with he | hm
              · exact Or.inr he
              · exact Or.inl hm
          · rw [if_neg hcond]
            exact ⟨hnd, hlen, fun n hn => Or.inl hn⟩
        rw [hfold]
        have hrec := ih (handleStartSession sessions history c.1 c.2).1
          (handleStartSession sessions history c.1 c.2).2 hstep.1 hstep.2.1
        refine ⟨hrec.1, hrec.2.1, ?_⟩
        intro n hn
        rcases hrec.2.2 n hn with hbase | ⟨d, hd, hdn⟩
        · rcases hstep.2.2 n hbase with hh | he
          · exact Or.inl hh
          · exact Or.inr ⟨c, List.mem_cons_self c cs, he.symm⟩
        · exact Or.inr ⟨d, List.mem_cons_of_mem c hd, hdn⟩
  · intro sessions history input newId hne hnotmem
    rw [handleStartSession_history, if_pos (by simp [hne, hnotmem])]
  · intro sessions history input newId hmem
    rw [handleStartSession_history, if_neg (by simp [hmem])]

def exampleHistInput (n : String) : NewSessionData :=
  { name := n, date := "2025-03-01", startTime := "08:00", observers := "Self", type := .trip }

theorem claim_C10_witness :
    (applyCreations [] []
      [(exampleHistInput "A", "1"), (exampleHistInput "B", "2")]).2.Nodup ∧
    (applyCreations [] []
      [(exampleHistInput "A", "1"), (exampleHistInput "B", "2")]).2.length ≤ 10 ∧
    (applyCreations [] []
      [(exampleHistInput "A", "1"), (exampleHistInput "B", "2")]).2 = ["B", "A"] := by
  have h := claim_C10_amended_location_history.1
    [(exampleHistInput "A", "1"), (exampleHistInput "B", "2")] [] []
    (by decide) (by decide)
  exact ⟨h.1, h.2.1, by decide⟩

/-- C10 counterexample: creating sessions named "A", "B" and then "A" again
leaves the history ["B", "A"]: the most recently used name "A" is not first —
a reused name is not moved to the front. -/
theorem claim_C10_counterexample :
    (applyCreations [] [] [(exampleHistInput "A", "1"), (exampleHistInput "B", "2"),
        (exampleHistInput "A", "3")]).2 = ["B", "A"] ∧
    (exampleHistInput "A").name = "A" ∧
    ("B" : String) ≠ "A" := by
  refine ⟨by decide, rfl, by decide⟩
